import Mathlib

/-!
Verification development for the goCachePro repository.

The definitions below are a shallow embedding of the Go source:
- `djb33`, `bucketIdx` embed `djb33` and `shardedCache.bucket` from
  `sharded.go` (32-bit machine arithmetic is modelled as `Nat` reduced
  modulo `2^32`; a key is its list of byte values; key lengths are
  assumed below `2^32`, as `uint32(len(k))` would otherwise wrap).
- `CacheState` and its operations embed the generic `cachePro[T]` engine
  (`Set`, `Add`, `Get`, `GetWithExpiration`, `Compute`,
  `ComputeTwoKeys`, `Delete`, `Flush`, `ItemCount`, `newCachePro`).
  The Go map is modelled as an association list, `time.Now().UnixNano()`
  as an explicit `now : Int` parameter threaded through each operation
  (one instant per operation, matching the sequential semantics), and
  the side-effecting callbacks (`delFunc`, `onEvicted`) as an event
  trace emitted in program order, with `Bool` flags recording whether a
  callback is configured.
-/

namespace GoCachePro

/-- Sentinel duration `DefaultExpiration = 0` (use the cache's default ttl),
from the go-cache constants referenced by `cachePro.go`. -/
def DefaultExpiration : Int := 0

/-- Sentinel duration `NoExpiration = -1` (the item never expires). -/
def NoExpiration : Int := -1

/-- An `ItemPro[T]`: stored value plus absolute expiration instant in
nanoseconds (`0` means no expiration). -/
structure ItemPro (T : Type) where
  Object : T
  Expiration : Int
  deriving DecidableEq, Repr

/-- The entries map `map[string]ItemPro[T]`, modelled as an association list. -/
abbrev ItemMap (T : Type) := List (String × ItemPro T)

/-- Go map read `items[k]`. -/
def mapLookup {T : Type} (m : ItemMap T) (k : String) : Option (ItemPro T) :=
  (m.find? (fun p => p.1 == k)).map Prod.snd

/-- Go builtin `delete(items, k)`. -/
def mapErase {T : Type} (m : ItemMap T) (k : String) : ItemMap T :=
  m.eraseP (fun p => p.1 == k)

/-- Go map write `items[k] = it`. -/
def mapInsert {T : Type} (m : ItemMap T) (k : String) (it : ItemPro T) : ItemMap T :=
  (k, it) :: mapErase m k

/-- The mutable state of a `cachePro[T]`; the two `Bool` fields record
whether the corresponding callback (`onEvicted`, `delFunc`) is non-nil. -/
structure CacheState (T : Type) where
  defaultExpiration : Int
  items : ItemMap T
  onEvictedSet : Bool
  delFuncSet : Bool
  deriving DecidableEq, Repr

/-- Observable callback and map events, in the order the Go code performs
them: a `delFunc` (destructor) call, the removal of a live map entry, and an
`onEvicted` call. -/
inductive CacheEvent (T : Type) where
  | destructorCall (v : T)
  | mapRemove (k : String)
  | evictedCall (k : String) (v : T)
  deriving DecidableEq, Repr

/-- Expiration resolution shared by `Set`/`set`/`ComputeWithExpiration`/
`ComputeTwoKeys`: `if d == DefaultExpiration { d = c.defaultExpiration };
if d > 0 { e = now + d }` (otherwise `e` stays `0`). -/
def resolveTTL {T : Type} (c : CacheState T) (d now : Int) : Int :=
  let d2 := if d = DefaultExpiration then c.defaultExpiration else d
  if d2 > 0 then now + d2 else 0

/-- `CachePro.Set` / `cachePro.set`: unconditionally store the item with the
resolved expiration. -/
def CacheState.Set {T : Type} (c : CacheState T) (k : String) (x : T) (d now : Int) :
    CacheState T :=
  { c with items := mapInsert c.items k ⟨x, resolveTTL c d now⟩ }

/-- `CachePro.Get` (identical logic to the unexported `cachePro.get`):
absent keys and entries with `Expiration > 0 && now > Expiration` read as
not found. -/
def CacheState.Get {T : Type} (c : CacheState T) (k : String) (now : Int) : Option T :=
  match mapLookup c.items k with
  | none => none
  | some item =>
    if item.Expiration > 0 ∧ now > item.Expiration then none else some item.Object

/-- `CachePro.GetWithExpiration`: as `Get`, also returning the absolute
expiration instant when one is set (`Expiration > 0`), and `none` (the zero
`time.Time`) when the entry never expires. -/
def CacheState.GetWithExpiration {T : Type} (c : CacheState T) (k : String) (now : Int) :
    Option (T × Option Int) :=
  match mapLookup c.items k with
  | none => none
  | some item =>
    if item.Expiration > 0 then
      if now > item.Expiration then none
      else some (item.Object, some item.Expiration)
    else some (item.Object, none)

/-- `CachePro.Add`: fail when `get` finds a live entry, otherwise `set`. -/
def CacheState.Add {T : Type} (c : CacheState T) (k : String) (x : T) (d now : Int) :
    Except String Unit × CacheState T :=
  match c.Get k now with
  | some _ => (.error ("Item " ++ k ++ " already exists"), c)
  | none => (.ok (), c.Set k x d now)

/-- `CachePro.Compute`: on a missing or expired key store the default value
with `Expiration = 0`; on a live key store `computeFunc(cur, cur)` keeping
the old expiration. Returns the stored value. -/
def CacheState.Compute {T : Type} (c : CacheState T) (k : String) (computeFunc : T → T → T)
    (defaultValue : T) (now : Int) : T × CacheState T :=
  match mapLookup c.items k with
  | none =>
    (defaultValue, { c with items := mapInsert c.items k ⟨defaultValue, 0⟩ })
  | some item =>
    if item.Expiration > 0 ∧ now > item.Expiration then
      (defaultValue, { c with items := mapInsert c.items k ⟨defaultValue, 0⟩ })
    else
      let newValue := computeFunc item.Object item.Object
      (newValue, { c with items := mapInsert c.items k ⟨newValue, item.Expiration⟩ })

/-- `CachePro.ComputeTwoKeys`: resolve the ttl first, check both source keys
for presence and non-expiry (returning an error with the original state
untouched on failure), then store the combination under `resultKey`. -/
def CacheState.ComputeTwoKeys {T : Type} (c : CacheState T) (k1 k2 : String)
    (computeFunc : T → T → T) (resultKey : String) (d now : Int) :
    Except String T × CacheState T :=
  let e := resolveTTL c d now
  match mapLookup c.items k1 with
  | none => (.error ("key " ++ k1 ++ " not found"), c)
  | some item1 =>
    if item1.Expiration > 0 ∧ now > item1.Expiration then
      (.error ("key " ++ k1 ++ " has expired"), c)
    else
      match mapLookup c.items k2 with
      | none => (.error ("key " ++ k2 ++ " not found"), c)
      | some item2 =>
        if item2.Expiration > 0 ∧ now > item2.Expiration then
          (.error ("key " ++ k2 ++ " has expired"), c)
        else
          let result := computeFunc item1.Object item2.Object
          (.ok result, { c with items := mapInsert c.items resultKey ⟨result, e⟩ })

/-- The unexported `cachePro.delete`: when `onEvicted` is set and the key is
present, call `delFunc` (if set), remove the entry and report it for
eviction; otherwise fall through, calling `delFunc` on a present entry and
removing it without reporting. The `mapRemove` event marks the effective
removal of a present entry (the Go `delete` builtin is a no-op on an absent
key). -/
def CacheState.deleteInner {T : Type} (c : CacheState T) (k : String) :
    (Option T × Bool) × CacheState T × List (CacheEvent T) :=
  if c.onEvictedSet then
    match mapLookup c.items k with
    | some v =>
      ((some v.Object, true), { c with items := mapErase c.items k },
        (if c.delFuncSet then [.destructorCall v.Object] else []) ++ [.mapRemove k])
    | none =>
      ((none, false), { c with items := mapErase c.items k }, [])
  else
    match mapLookup c.items k with
    | some v =>
      ((none, false), { c with items := mapErase c.items k },
        (if c.delFuncSet then [.destructorCall v.Object] else []) ++ [.mapRemove k])
    | none =>
      ((none, false), { c with items := mapErase c.items k }, [])

/-- `CachePro.Delete`: run the inner delete under the lock, then invoke
`onEvicted(k, v)` after the lock is released when an eviction was reported. -/
def CacheState.Delete {T : Type} (c : CacheState T) (k : String) :
    CacheState T × List (CacheEvent T) :=
  let r := c.deleteInner k
  match r.1 with
  | (some v, true) => (r.2.1, r.2.2 ++ [.evictedCall k v])
  | _ => (r.2.1, r.2.2)

/-- `CachePro.Flush`: replace the entries map with a fresh empty one; no
callback runs. -/
def CacheState.Flush {T : Type} (c : CacheState T) : CacheState T × List (CacheEvent T) :=
  ({ c with items := [] }, [])

/-- `CachePro.ItemCount`: `len(c.items)`, expired entries included. -/
def CacheState.ItemCount {T : Type} (c : CacheState T) : Nat :=
  c.items.length

/-- `newCachePro`: a construction-time default expiration of `0` is
normalized to `-1`; no callbacks are configured. -/
def newCachePro {T : Type} (de : Int) (m : ItemMap T) : CacheState T :=
  let de2 := if de = 0 then -1 else de
  { defaultExpiration := de2, items := m, onEvictedSet := false, delFuncSet := false }

/-- Reduction modulo `2^32`, modelling Go `uint32` arithmetic. -/
def u32 (x : Nat) : Nat := x % 4294967296

/-- One multiply-xor step of `djb33`: `d = (d * 33) ^ uint32(k[i])`. -/
def djb33Step (d b : Nat) : Nat := u32 (Nat.xor (u32 (d * 33)) (u32 b))

/-- The initial hash word of `djb33`: `d = 5381 + seed + l`. -/
def djb33Init (seed l : Nat) : Nat := u32 (5381 + u32 seed + u32 l)

/-- The loop and tail switch of `djb33`: while more than four bytes remain,
mix in four bytes; then the `switch l - i` mixes in one byte fewer than
remain (`case 1` mixes nothing, `case 4` mixes three bytes). -/
def djb33Body (d : Nat) : List Nat → Nat
  | b0 :: b1 :: b2 :: b3 :: b4 :: rest =>
    djb33Body (djb33Step (djb33Step (djb33Step (djb33Step d b0) b1) b2) b3) (b4 :: rest)
  | [] => d
  | [_] => d
  | [b0, _] => djb33Step d b0
  | [b0, b1, _] => djb33Step (djb33Step d b0) b1
  | [b0, b1, b2, _] => djb33Step (djb33Step (djb33Step d b0) b1) b2

/-- The final avalanche of `djb33`: `d ^ (d >> 16)`. -/
def avalanche (d : Nat) : Nat := u32 (Nat.xor d (d >>> 16))

/-- `djb33(seed, k)` from `sharded.go`, on the key's byte list. -/
def djb33 (seed : Nat) (k : List Nat) : Nat :=
  avalanche (djb33Body (djb33Init seed k.length) k)

/-- The shard index selected by `shardedCache.bucket`:
`djb33(seed, k) % m`. -/
def bucketIdx (seed n : Nat) (k : List Nat) : Nat :=
  djb33 seed k % n

/-- Modelled from the spec (claim C1's reading of logical expiry, which is
not in `src/`): `get` is absent iff the key is unknown or the entry's
expiration instant is set and is at most the current time. -/
def specGetAbsentLE {T : Type} (c : CacheState T) (k : String) (now : Int) : Bool :=
  match mapLookup c.items k with
  | none => true
  | some item => decide (item.Expiration > 0) && decide (item.Expiration ≤ now)

/-- Amended reading of logical expiry: `get` is absent iff the key is
unknown or the entry's expiration instant is set and is strictly before the
current time (an entry whose instant equals the current time is still
returned). -/
def specGetAbsentLT {T : Type} (c : CacheState T) (k : String) (now : Int) : Bool :=
  match mapLookup c.items k with
  | none => true
  | some item => decide (item.Expiration > 0) && decide (now > item.Expiration)

/-- Modelled from the spec (claim C2's description of `route`): initialize
from seed and key length, xor in every byte of the key in order after
multiplying by 33, then avalanche. -/
def djb33SpecAll (seed : Nat) (k : List Nat) : Nat :=
  avalanche (k.foldl djb33Step (djb33Init seed k.length))

/-- Amended description of the hash: as `djb33SpecAll` but the final byte of
the key never contributes (only the length and the first `length - 1` bytes
are mixed in). -/
def djb33SpecDropLast (seed : Nat) (k : List Nat) : Nat :=
  avalanche (k.dropLast.foldl djb33Step (djb33Init seed k.length))

/-- The absolute expiration instant an entry surfaces through
`GetWithExpiration`: the stored instant when set, `none` otherwise. -/
def expirationOf {T : Type} (c : CacheState T) (k : String) : Option Int :=
  match mapLookup c.items k with
  | none => none
  | some item => if item.Expiration > 0 then some item.Expiration else none

/-- Writing an item and reading the same key back yields that item. -/
theorem mapLookup_mapInsert_self {T : Type} (m : ItemMap T) (k : String) (it : ItemPro T) :
    mapLookup (mapInsert m k it) k = some it := by
  simp [mapLookup, mapInsert, List.find?]

/-- Erasing a key that the map does not hold leaves the map unchanged. -/
theorem mapErase_of_lookup_none {T : Type} (m : ItemMap T) (k : String)
    (h : mapLookup m k = none) : mapErase m k = m := by
  unfold mapErase
  apply List.eraseP_of_forall_not
  intro a ha
  unfold mapLookup at h
  simp only [Option.map_eq_none'] at h
  exact List.find?_eq_none.mp h a ha

/-- The loop plus tail switch of `djb33` mixes in exactly the key's bytes
with its final byte dropped. -/
theorem djb33Body_eq : ∀ (n : Nat) (bs : List Nat), bs.length ≤ n →
    ∀ d, djb33Body d bs = bs.dropLast.foldl djb33Step d := by
  intro n
  induction n with
  | zero =>
    intro bs h d
    rcases bs with _ | ⟨b, t⟩
    · rfl
    · simp at h
  | succ n ih =>
    intro bs h d
    rcases bs with _ | ⟨b0, _ | ⟨b1, _ | ⟨b2, _ | ⟨b3, _ | ⟨b4, rest⟩⟩⟩⟩⟩
    · rfl
    · rfl
    · rfl
    · rfl
    · rfl
    · have hlen : (b4 :: rest).length ≤ n := by
        simp [List.length] at h ⊢; omega
      simp only [djb33Body]
      rw [ih (b4 :: rest) hlen]
      simp only [List.dropLast, List.foldl]

/-- Characterization of an absent read: `Get` yields `none` exactly for an
unknown key or an entry whose instant is set and strictly passed. -/
theorem Get_eq_none_iff {T : Type} (c : CacheState T) (k : String) (now : Int) :
    c.Get k now = none ↔
      (mapLookup c.items k = none ∨
        ∃ item, mapLookup c.items k = some item ∧
          item.Expiration > 0 ∧ now > item.Expiration) := by
  unfold CacheState.Get
  cases hm : mapLookup c.items k with
  | none => simp
  | some item =>
    by_cases hc : item.Expiration > 0 ∧ now > item.Expiration
    · simp [hc]
    · simp [hc]

/-- Reading a key right after inserting an item for it applies the expiry
check to that item. -/
theorem Get_mapInsert_self {T : Type} (c : CacheState T) (k : String) (it : ItemPro T)
    (now : Int) :
    CacheState.Get { c with items := mapInsert c.items k it } k now
      = if it.Expiration > 0 ∧ now > it.Expiration then none else some it.Object := by
  unfold CacheState.Get
  rw [mapLookup_mapInsert_self]

/-- Claim C1 fails on the code: with the entry for `"k"` expiring exactly at
instant `5`, reading at instant `5` still returns the value, while the
claim's notion of logical expiry (`expires_at ≤ now`) calls the entry
expired and demands an absent result. -/
theorem claim1_counterexample :
    ¬ ((CacheState.Get (⟨-1, [("k", ⟨(7 : Nat), 5⟩)], false, false⟩ : CacheState Nat) "k" 5
          = none)
      ↔ specGetAbsentLE (⟨-1, [("k", ⟨(7 : Nat), 5⟩)], false, false⟩ : CacheState Nat) "k" 5
          = true) := by
  decide

/-- Claim C1 (amended): for every cache state, key and current time, `Get`
returns absent exactly when the key is not in the map or the stored entry's
expiration instant is set and is strictly before the current time; an entry
whose instant equals the current time is still returned, regardless of
whether the sweep has physically removed anything. -/
theorem claim1_theorem {T : Type} (c : CacheState T) (k : String) (now : Int) :
    c.Get k now = none ↔ specGetAbsentLT c k now = true := by
  rw [Get_eq_none_iff]
  unfold specGetAbsentLT
  cases hm : mapLookup c.items k with
  | none => simp
  | some item => simp

/-- Claim C2 fails on the code: at seed `0`, the one-byte key `"a"` and
shard count `256`, the index computed by `bucket` differs from the index of
the spec's described hash in which every byte, the last included, is mixed
in. -/
theorem claim2_counterexample :
    bucketIdx 0 256 [97] ≠ djb33SpecAll 0 [97] % 256 := by
  decide

/-- Claim C2 (amended): for every seed, key and shard count, the index
computed by `bucket` equals the described multiply-xor hash reduced modulo
the shard count, except that the final byte of the key never contributes:
only the key's length and its first `length - 1` bytes are mixed in. -/
theorem claim2_theorem (seed : Nat) (k : List Nat) (n : Nat) :
    bucketIdx seed n k = djb33SpecDropLast seed k % n := by
  unfold bucketIdx djb33 djb33SpecDropLast
  rw [djb33Body_eq k.length k (Nat.le_refl _)]

/-- Claim C3: `Compute` on a live entry stores `f(current, current)` with
the entry's expiration instant unchanged and returns the new value; on a
missing or expired key it stores the default value with no expiration (so
every later `Get` returns it) and returns the default. -/
theorem claim3_theorem {T : Type} (c : CacheState T) (k : String) (f : T → T → T)
    (dflt : T) (now : Int) :
    (∀ item, mapLookup c.items k = some item →
        ¬ (item.Expiration > 0 ∧ now > item.Expiration) →
        c.Compute k f dflt now
          = (f item.Object item.Object,
            { c with items := mapInsert c.items k ⟨f item.Object item.Object,
                item.Expiration⟩ }))
  ∧ ((mapLookup c.items k = none ∨
        ∃ item, mapLookup c.items k = some item ∧
          item.Expiration > 0 ∧ now > item.Expiration) →
      c.Compute k f dflt now = (dflt, { c with items := mapInsert c.items k ⟨dflt, 0⟩ })
        ∧ ∀ t2, (c.Compute k f dflt now).2.Get k t2 = some dflt) := by
  constructor
  · intro item hm hc
    simp only [CacheState.Compute, hm]
    rw [if_neg hc]
  · intro h
    have hmain : c.Compute k f dflt now
        = (dflt, { c with items := mapInsert c.items k ⟨dflt, 0⟩ }) := by
      rcases h with hm | ⟨item, hm, hc⟩
      · simp only [CacheState.Compute, hm]
      · simp only [CacheState.Compute, hm]
        rw [if_pos hc]
    refine ⟨hmain, fun t2 => ?_⟩
    rw [hmain, Get_mapInsert_self]
    simp

/-- Witness for C3: the spec's own scenario, `Compute` on a live entry
holding `5` with addition returns `10` and overwrites the stored value. -/
theorem claim3_witness :
    CacheState.Compute (⟨-1, [("value", ⟨(5 : Nat), 0⟩)], false, false⟩ : CacheState Nat)
        "value" (· + ·) 0 100
      = (10, ⟨-1, [("value", ⟨10, 0⟩)], false, false⟩) :=
  (claim3_theorem (⟨-1, [("value", ⟨(5 : Nat), 0⟩)], false, false⟩ : CacheState Nat)
    "value" (· + ·) 0 100).1 ⟨5, 0⟩ rfl (by decide)

/-- Claim C4: `ComputeTwoKeys` fails when either source key is absent or
expired, leaving the state untouched (the result key is not created); when
both are live it stores the combination under the result key with the
expiration resolved from the ttl and returns it. -/
theorem claim4_theorem {T : Type} (c : CacheState T) (k1 k2 : String) (f : T → T → T)
    (rk : String) (d now : Int) :
    (mapLookup c.items k1 = none →
      c.ComputeTwoKeys k1 k2 f rk d now = (.error ("key " ++ k1 ++ " not found"), c))
  ∧ (∀ item1, mapLookup c.items k1 = some item1 →
      item1.Expiration > 0 ∧ now > item1.Expiration →
      c.ComputeTwoKeys k1 k2 f rk d now = (.error ("key " ++ k1 ++ " has expired"), c))
  ∧ (∀ item1, mapLookup c.items k1 = some item1 →
      ¬ (item1.Expiration > 0 ∧ now > item1.Expiration) →
      mapLookup c.items k2 = none →
      c.ComputeTwoKeys k1 k2 f rk d now = (.error ("key " ++ k2 ++ " not found"), c))
  ∧ (∀ item1 item2, mapLookup c.items k1 = some item1 →
      ¬ (item1.Expiration > 0 ∧ now > item1.Expiration) →
      mapLookup c.items k2 = some item2 →
      item2.Expiration > 0 ∧ now > item2.Expiration →
      c.ComputeTwoKeys k1 k2 f rk d now = (.error ("key " ++ k2 ++ " has expired"), c))
  ∧ (∀ item1 item2, mapLookup c.items k1 = some item1 →
      ¬ (item1.Expiration > 0 ∧ now > item1.Expiration) →
      mapLookup c.items k2 = some item2 →
      ¬ (item2.Expiration > 0 ∧ now > item2.Expiration) →
      c.ComputeTwoKeys k1 k2 f rk d now
        = (.ok (f item1.Object item2.Object),
          { c with items := mapInsert c.items rk ⟨f item1.Object item2.Object,
              resolveTTL c d now⟩ })) := by
  refine ⟨?_, ?_, ?_, ?_, ?_⟩
  · intro hm1
    simp only [CacheState.ComputeTwoKeys, hm1]
  · intro item1 hm1 hc1
    simp only [CacheState.ComputeTwoKeys, hm1]
    rw [if_pos hc1]
  · intro item1 hm1 hc1 hm2
    simp only [CacheState.ComputeTwoKeys, hm1, hm2]
    rw [if_neg hc1]
  · intro item1 item2 hm1 hc1 hm2 hc2
    simp only [CacheState.ComputeTwoKeys, hm1, hm2]
    rw [if_neg hc1, if_pos hc2]
  · intro item1 item2 hm1 hc1 hm2 hc2
    simp only [CacheState.ComputeTwoKeys, hm1, hm2]
    rw [if_neg hc1, if_neg hc2]

/-- Witness for C4: the spec's scenario with both source keys live;
the combination is stored under the result key and returned. -/
theorem claim4_witness :
    CacheState.ComputeTwoKeys
        (⟨-1, [("first", ⟨(1 : Nat), 0⟩), ("second", ⟨2, 0⟩)], false, false⟩ : CacheState Nat)
        "first" "second" (· + ·) "message" (-1) 0
      = (.ok 3,
        ⟨-1, [("message", ⟨3, 0⟩), ("first", ⟨1, 0⟩), ("second", ⟨2, 0⟩)], false, false⟩) :=
  (claim4_theorem
      (⟨-1, [("first", ⟨(1 : Nat), 0⟩), ("second", ⟨2, 0⟩)], false, false⟩ : CacheState Nat)
      "first" "second" (· + ·) "message" (-1) 0).2.2.2.2
    ⟨1, 0⟩ ⟨2, 0⟩ rfl (by decide) rfl (by decide)

/-- Claim C5: `Add` on a key holding a live entry fails and leaves the whole
state (value and expiration included) unchanged; on a missing or expired key
it succeeds and produces exactly the state `Set` produces. -/
theorem claim5_theorem {T : Type} (c : CacheState T) (k : String) (x : T) (d now : Int) :
    (∀ item, mapLookup c.items k = some item →
        ¬ (item.Expiration > 0 ∧ now > item.Expiration) →
        c.Add k x d now = (.error ("Item " ++ k ++ " already exists"), c))
  ∧ ((mapLookup c.items k = none ∨
        ∃ item, mapLookup c.items k = some item ∧
          item.Expiration > 0 ∧ now > item.Expiration) →
      c.Add k x d now = (.ok (), c.Set k x d now)) := by
  constructor
  · intro item hm hc
    have hg : c.Get k now = some item.Object := by
      unfold CacheState.Get
      rw [hm]
      simp [hc]
    unfold CacheState.Add
    rw [hg]
  · intro h
    have hg : c.Get k now = none := (Get_eq_none_iff c k now).mpr h
    unfold CacheState.Add
    rw [hg]

/-- Witness for C5: `Add` on a live never-expiring entry fails with the
already-exists error and the state is returned unchanged. -/
theorem claim5_witness :
    CacheState.Add (⟨-1, [("k", ⟨(1 : Nat), 0⟩)], false, false⟩ : CacheState Nat)
        "k" 2 (-1) 50
      = (.error ("Item " ++ "k" ++ " already exists"),
        ⟨-1, [("k", ⟨1, 0⟩)], false, false⟩) :=
  (claim5_theorem (⟨-1, [("k", ⟨(1 : Nat), 0⟩)], false, false⟩ : CacheState Nat)
    "k" 2 (-1) 50).1 ⟨1, 0⟩ rfl (by decide)

/-- Claim C6: deleting a present key (expired entries included) removes the
entry and emits, in order, the destructor call (when configured) with the
removed value, the map removal, and then the eviction callback (when
configured) with the key and value; deleting an absent key changes nothing
and emits no event. -/
theorem claim6_theorem {T : Type} (c : CacheState T) (k : String) :
    (∀ item, mapLookup c.items k = some item →
        c.Delete k
          = ({ c with items := mapErase c.items k },
            (if c.delFuncSet then [CacheEvent.destructorCall item.Object] else [])
              ++ [CacheEvent.mapRemove k]
              ++ (if c.onEvictedSet then [CacheEvent.evictedCall k item.Object] else [])))
  ∧ (mapLookup c.items k = none → c.Delete k = (c, [])) := by
  constructor
  · intro item hm
    unfold CacheState.Delete CacheState.deleteInner
    cases hev : c.onEvictedSet <;> cases hdf : c.delFuncSet <;> simp [hm]
  · intro hm
    have he := mapErase_of_lookup_none c.items k hm
    obtain ⟨de, its, ev, df⟩ := c
    unfold CacheState.Delete CacheState.deleteInner
    simp only at hm he
    cases ev <;> simp [hm, he]

/-- Witness for C6: with both callbacks configured, deleting the present key
empties the map and the trace is destructor call, removal, then eviction
callback. -/
theorem claim6_witness :
    CacheState.Delete (⟨-1, [("k", ⟨(7 : Nat), 5⟩)], true, true⟩ : CacheState Nat) "k"
      = (⟨-1, [], true, true⟩,
        [CacheEvent.destructorCall 7, CacheEvent.mapRemove "k",
          CacheEvent.evictedCall "k" 7]) :=
  (claim6_theorem (⟨-1, [("k", ⟨(7 : Nat), 5⟩)], true, true⟩ : CacheState Nat) "k").1
    ⟨7, 5⟩ rfl

/-- Claim C7: `Flush` empties the entries map without emitting any
destructor or eviction event, after which `ItemCount` is `0`, and the
default ttl and callback configuration are untouched. -/
theorem claim7_theorem {T : Type} (c : CacheState T) :
    (c.Flush).2 = []
  ∧ (c.Flush).1.items = []
  ∧ (c.Flush).1.ItemCount = 0
  ∧ (c.Flush).1.defaultExpiration = c.defaultExpiration
  ∧ (c.Flush).1.onEvictedSet = c.onEvictedSet
  ∧ (c.Flush).1.delFuncSet = c.delFuncSet :=
  ⟨rfl, rfl, rfl, rfl, rfl, rfl⟩

/-- Claim C8: `GetWithExpiration` finds exactly what `Get` finds and pairs
the value with the entry's stored expiration instant when one is set, or
with no instant when the entry never expires. -/
theorem claim8_theorem {T : Type} (c : CacheState T) (k : String) (now : Int) :
    c.GetWithExpiration k now
      = (c.Get k now).map (fun v => (v, expirationOf c k)) := by
  unfold CacheState.GetWithExpiration CacheState.Get expirationOf
  cases hm : mapLookup c.items k with
  | none => rfl
  | some item =>
    by_cases h1 : item.Expiration > 0 <;> by_cases h2 : now > item.Expiration <;>
      simp [h1, h2]

/-- Claim C9: for a positive shard count, the index `bucket` computes is
always strictly below the shard count, so shard selection stays inside the
shard slice. -/
theorem claim9_theorem (seed n : Nat) (k : List Nat) (h : 0 < n) :
    bucketIdx seed n k < n :=
  Nat.mod_lt _ h

/-- Witness for C9: a concrete routed key lands below shard count `4`. -/
theorem claim9_witness : 0 < 4 ∧ bucketIdx 0 4 [104, 105] < 4 :=
  ⟨by decide, claim9_theorem 0 4 [104, 105] (by decide)⟩

/-- Claim C10: `Set` with any negative duration stores a never-expiring
entry (`Expiration = 0`), as does `Set` with the `UseDefault` sentinel when
the cache's default ttl is not positive; such an entry is returned by `Get`
at every time; and a construction-time default of `0` is normalized to
`-1`. -/
theorem claim10_theorem {T : Type} (c : CacheState T) (k : String) (x : T) (now : Int) :
    (∀ d : Int, d < 0 →
      mapLookup (c.Set k x d now).items k = some ⟨x, 0⟩
        ∧ ∀ t2, (c.Set k x d now).Get k t2 = some x)
  ∧ (c.defaultExpiration ≤ 0 →
      mapLookup (c.Set k x DefaultExpiration now).items k = some ⟨x, 0⟩
        ∧ ∀ t2, (c.Set k x DefaultExpiration now).Get k t2 = some x)
  ∧ (∀ m : ItemMap T, (newCachePro 0 m).defaultExpiration = -1) := by
  refine ⟨?_, ?_, fun m => rfl⟩
  · intro d hd
    have he : resolveTTL c d now = 0 := by
      simp only [resolveTTL, DefaultExpiration]
      rw [if_neg (show ¬ d = (0 : Int) by omega),
        if_neg (show ¬ d > (0 : Int) by omega)]
    constructor
    · unfold CacheState.Set
      rw [he, mapLookup_mapInsert_self]
    · intro t2
      unfold CacheState.Set
      rw [he]
      rw [Get_mapInsert_self]
      simp
  · intro hde
    have he : resolveTTL c DefaultExpiration now = 0 := by
      simp only [resolveTTL, if_true]
      rw [if_neg (show ¬ c.defaultExpiration > (0 : Int) by omega)]
    constructor
    · unfold CacheState.Set
      rw [he, mapLookup_mapInsert_self]
    · intro t2
      unfold CacheState.Set
      rw [he]
      rw [Get_mapInsert_self]
      simp

/-- Witness for C10: `Set` with duration `-5` stores a never-expiring entry
that `Get` still returns far in the future. -/
theorem claim10_witness :
    mapLookup (CacheState.Set (⟨-1, [], false, false⟩ : CacheState Nat)
        "k" 3 (-5) 100).items "k" = some ⟨3, 0⟩
    ∧ CacheState.Get (CacheState.Set (⟨-1, [], false, false⟩ : CacheState Nat)
        "k" 3 (-5) 100) "k" 1000000 = some 3 := by
  have h := (claim10_theorem (⟨-1, [], false, false⟩ : CacheState Nat) "k" 3 100).1
    (-5) (by norm_num)
  exact ⟨h.1, h.2 1000000⟩

end GoCachePro
